import Mathlib

/-!
Shallow embedding of the appointment scheduling and availability engine of
the Dreambook-Salon repository (apps `appointments`, `inventory`, `services`,
`payments`), together with theorems settling the specification claims.

Modelling conventions:
- datetimes are integers counting minutes (a day is 1440 minutes, an hour 60);
- money and stock quantities (`DecimalField`) are rationals;
- Django querysets over a table become explicit lists carried in a `DB` state;
- each Django view handler becomes a function `DB -> ... -> Result x DB`.
-/

namespace Salon

/-- Appointment.Status choices (appointments/models.py). -/
inductive Status
  | pending
  | confirmed
  | in_progress
  | completed
  | no_show
  | cancelled
deriving DecidableEq

/-- Appointment.PaymentState choices (appointments/models.py). -/
inductive PaymentState
  | unpaid
  | pending
  | paid
  | failed
deriving DecidableEq

/-- Payment.Status choices (payments/models.py). -/
inductive PaymentStatus
  | pending
  | paid
  | failed
deriving DecidableEq

/-- User roles as used by the appointment views (customer vs staff or admin). -/
inductive Role
  | customer
  | staff
  | admin
deriving DecidableEq

/-- A user: id and role, the two attributes the appointment views read. -/
structure User where
  id : Nat
  role : Role
deriving DecidableEq

/-- AppointmentSettings singleton (appointments/models.py). -/
structure AppointmentSettings where
  max_concurrent : Nat
  booking_window_days : Nat
  prevent_completion_on_insufficient_stock : Bool
deriving DecidableEq

/-- BlockedRange (appointments/models.py). -/
structure BlockedRange where
  start_at : Int
  end_at : Int
  reason : String
deriving DecidableEq

/-- BlockedRange.overlaps (appointments/models.py line 59). -/
def BlockedRange.overlaps (b : BlockedRange) (start_t end_t : Int) : Bool :=
  decide (start_t < b.end_at) && decide (end_t > b.start_at)

/-- SlotLimit (appointments/models.py): per-window capacity override record.
`date` is a day number, `time_start` and `time_end` are minutes within a day. -/
structure SlotLimit where
  date : Int
  time_start : Int
  time_end : Int
  max_slots : Nat
  reason : String
deriving DecidableEq

/-- Inventory Item (inventory/models.py); stock is a decimal quantity. -/
structure Item where
  id : Nat
  name : String
  stock : ℚ
deriving DecidableEq

/-- ServiceItem requirement row (services/models.py): the item consumed per
service occurrence. Database constraint: unique_together (service, item). -/
structure ServiceItemReq where
  itemId : Nat
  qty_per_service : ℚ
deriving DecidableEq

/-- Service (services/models.py) restricted to what the engine reads. -/
structure Service where
  id : Nat
  duration_minutes : Nat
  is_active : Bool
  service_items : List ServiceItemReq
deriving DecidableEq

/-- Payment (payments/models.py) restricted to what refund computation reads. -/
structure Payment where
  appointment : Nat
  amount : ℚ
  status : PaymentStatus
deriving DecidableEq

/-- Appointment record (appointments/models.py). -/
structure Appointment where
  id : Nat
  customer : Nat
  service : Nat
  start_at : Int
  end_at : Int
  status : Status
  payment_state : PaymentState
  notes : String
  cancelled_at : Option Int
  cancelled_by : Option Nat
  cancellation_reason : String
  refund_amount : ℚ
deriving DecidableEq

/-- The datastore state read and written by the engine. -/
structure DB where
  settings : AppointmentSettings
  services : List Service
  items : List Item
  appointments : List Appointment
  blocked_ranges : List BlockedRange
  slot_limits : List SlotLimit
  payments : List Payment
deriving DecidableEq

/-- Stock of the item with the given id (0 if absent; in Django the foreign
key dereference `service_item.item` always succeeds). -/
def stockOf (items : List Item) (i : Nat) : ℚ :=
  match items.find? (fun it => it.id == i) with
  | some it => it.stock
  | none => 0

/-- Name of the item with the given id ("" if absent). -/
def itemName (items : List Item) (i : Nat) : String :=
  match items.find? (fun it => it.id == i) with
  | some it => it.name
  | none => ""

/-- The inventory requirements of the service with the given id, modelling
`appointment.service.service_items.all()`. -/
def serviceItemsOf (db : DB) (sid : Nat) : List ServiceItemReq :=
  match db.services.find? (fun s => s.id == sid) with
  | some s => s.service_items
  | none => []

/-- Fetch an appointment by primary key (`get_object_or_404`). -/
def findAppt (db : DB) (pk : Nat) : Option Appointment :=
  db.appointments.find? (fun a => a.id == pk)

/-- Persist a status change on the appointment with the given primary key. -/
def setStatus (db : DB) (pk : Nat) (st : Status) : DB :=
  { db with appointments :=
      db.appointments.map (fun a => if a.id == pk then { a with status := st } else a) }

/-- The statuses that occupy capacity in the concurrency checks. -/
def countedStatuses : List Status := [.pending, .confirmed, .in_progress]

/-- The overlapping-appointments queryset of the capacity check
(views.py lines 48-60, utils.py lines 250-258): appointments with a counted
status whose window overlaps the candidate window, optionally excluding one
appointment id. -/
def overlappingAppointments (db : DB) (start_at end_at : Int)
    (exclude_appointment_id : Option Nat) : List Appointment :=
  let base := db.appointments.filter (fun a =>
    decide (a.start_at < end_at) && decide (a.end_at > start_at) &&
      decide (a.status ∈ countedStatuses))
  match exclude_appointment_id with
  | some i => base.filter (fun a => decide (a.id ≠ i))
  | none => base

/-- The `concurrent_count` used by the capacity checks. -/
def overlappingCount (db : DB) (start_at end_at : Int)
    (exclude_appointment_id : Option Nat) : Nat :=
  (overlappingAppointments db start_at end_at exclude_appointment_id).length

/-- check_availability (appointments/views.py lines 16-71). -/
def check_availability (db : DB) (now : Int) (service : Service)
    (start_at : Int) (exclude_appointment_id : Option Nat) : Bool × Option String :=
  let end_at := start_at + (service.duration_minutes : Int)
  if start_at < now then
    (false, some "Cannot book appointments in the past")
  else
    let max_future := now + (db.settings.booking_window_days : Int) * 1440
    if start_at > max_future then
      (false, some ("Cannot book more than " ++ toString db.settings.booking_window_days
        ++ " days in advance"))
    else
      let blocked_ranges := db.blocked_ranges.filter (fun b =>
        decide (b.start_at < end_at) && decide (b.end_at > start_at))
      match blocked_ranges.head? with
      | some blocked =>
        (false, some (if blocked.reason != "" then "Time slot blocked: " ++ blocked.reason
          else "Time slot is blocked"))
      | none =>
        let concurrent_count := overlappingCount db start_at end_at exclude_appointment_id
        if concurrent_count ≥ db.settings.max_concurrent then
          (false, some ("Time slot full (max " ++ toString db.settings.max_concurrent
            ++ " concurrent appointments)"))
        else
          match service.service_items.find? (fun si =>
              decide (stockOf db.items si.itemId < si.qty_per_service)) with
          | some si => (false, some ("Insufficient inventory: " ++ itemName db.items si.itemId))
          | none => (true, none)

/-- check_slot_availability (appointments/utils.py lines 215-268). The
`duration_minutes` argument is accepted but unused, as in the source. -/
def check_slot_availability (db : DB) (now : Int) (service : Service)
    (start_at end_at : Int) (_duration_minutes : Nat) : Bool × Option String :=
  if start_at < now then
    (false, some "Time has passed")
  else
    let max_future := now + (db.settings.booking_window_days : Int) * 1440
    if start_at > max_future then
      (false, some ("Beyond booking window (" ++ toString db.settings.booking_window_days
        ++ " days)"))
    else
      let blocked_ranges := db.blocked_ranges.filter (fun b =>
        decide (b.start_at < end_at) && decide (b.end_at > start_at))
      match blocked_ranges.head? with
      | some blocked =>
        (false, some (if blocked.reason != "" then blocked.reason else "Blocked"))
      | none =>
        let concurrent_count := overlappingCount db start_at end_at none
        if concurrent_count ≥ db.settings.max_concurrent then
          (false, some "Full")
        else
          match service.service_items.find? (fun si =>
              decide (stockOf db.items si.itemId < si.qty_per_service)) with
          | some si => (false, some ("No stock: " ++ itemName db.items si.itemId))
          | none => (true, none)

/-- Hours from `now` until `start_at`, modelling
`(self.start_at - now).total_seconds() / 3600` with minute-valued datetimes. -/
def hoursUntil (start_at now : Int) : ℚ :=
  ((start_at - now : Int) : ℚ) * 60 / 3600

/-- The first PAID payment attached to an appointment
(`Payment.objects.filter(appointment=self, status=PAID).first()`). -/
def paidPaymentOf (db : DB) (apptId : Nat) : Option Payment :=
  db.payments.find? (fun p => p.appointment == apptId && p.status == PaymentStatus.paid)

/-- Appointment.calculate_refund (appointments/models.py lines 194-228):
returns (refund percentage, refund amount). -/
def calculate_refund (db : DB) (a : Appointment) (now : Int) : ℚ × ℚ :=
  let hours_until := hoursUntil a.start_at now
  match paidPaymentOf db a.id with
  | none => (0, 0)
  | some payment =>
    let percentage : ℚ :=
      if hours_until > 48 then 100
      else if hours_until > 24 then 50
      else 0
    (percentage, payment.amount * (percentage / 100))

/-- Appointment.cancel (appointments/models.py lines 230-249): the model
method that computes the refund and records all cancellation fields. This
method exists in the source but is never invoked by `AppointmentCancelView`. -/
def Appointment.cancel (db : DB) (a : Appointment) (now : Int)
    (cancelled_by : Nat) (reason : String) : Appointment × ℚ × ℚ :=
  let pr := calculate_refund db a now
  ({ a with
      status := .cancelled
      cancelled_at := some now
      cancelled_by := some cancelled_by
      cancellation_reason := reason
      refund_amount := pr.2 }, pr)

/-- Result of AppointmentCancelView. -/
inductive CancelResult
  | notFound
  | forbidden
  | invalidStatus
  | success
deriving DecidableEq

/-- AppointmentCancelView.post (appointments/views.py lines 267-292). -/
def appointmentCancelView (db : DB) (user : User) (pk : Nat) : CancelResult × DB :=
  match findAppt db pk with
  | none => (.notFound, db)
  | some appointment =>
    if user.role = .customer ∧ appointment.customer ≠ user.id then
      (.forbidden, db)
    else if appointment.status ∈ [Status.completed, Status.no_show, Status.cancelled] then
      (.invalidStatus, db)
    else
      (.success, setStatus db pk .cancelled)

/-- Result of AppointmentCompleteView. -/
inductive CompleteResult
  | notFound
  | notInProgress
  | insufficientStock (names : List String)
  | success
deriving DecidableEq

/-- The `insufficient_items` name list built by AppointmentCompleteView
(views.py lines 377-380): names of required items whose stock is below the
per-service quantity, in requirement order. -/
def insufficientItems (db : DB) (reqs : List ServiceItemReq) : List String :=
  (reqs.filter (fun si => decide (stockOf db.items si.itemId < si.qty_per_service))).map
    (fun si => itemName db.items si.itemId)

/-- One step of the inventory deduction loop (views.py lines 390-393):
`item.stock -= service_item.qty_per_service; item.save()`. -/
def applyDeduct (items : List Item) (si : ServiceItemReq) : List Item :=
  items.map (fun it =>
    if it.id == si.itemId then { it with stock := it.stock - si.qty_per_service } else it)

/-- The full inventory deduction loop of AppointmentCompleteView. -/
def deductStock (items : List Item) (reqs : List ServiceItemReq) : List Item :=
  reqs.foldl applyDeduct items

/-- AppointmentCompleteView.post (appointments/views.py lines 363-403). -/
def appointmentCompleteView (db : DB) (pk : Nat) : CompleteResult × DB :=
  match findAppt db pk with
  | none => (.notFound, db)
  | some appointment =>
    if appointment.status ≠ .in_progress then
      (.notInProgress, db)
    else
      let reqs := serviceItemsOf db appointment.service
      if db.settings.prevent_completion_on_insufficient_stock = true ∧
          insufficientItems db reqs ≠ [] then
        (.insufficientStock (insufficientItems db reqs), db)
      else
        let db1 := { db with items := deductStock db.items reqs }
        (.success, setStatus db1 pk .completed)

/-- Result of AppointmentUpdateStatusView. -/
inductive UpdateStatusResult
  | notFound
  | invalidStatus
  | routedToComplete (r : CompleteResult)
  | success
deriving DecidableEq

/-- Decode a posted status string against Appointment.Status.choices,
modelling `new_status not in dict(Appointment.Status.choices)`. -/
def parseStatus (s : String) : Option Status :=
  if s == "pending" then some .pending
  else if s == "confirmed" then some .confirmed
  else if s == "in_progress" then some .in_progress
  else if s == "completed" then some .completed
  else if s == "no_show" then some .no_show
  else if s == "cancelled" then some .cancelled
  else none

/-- AppointmentUpdateStatusView.post (appointments/views.py lines 406-425). -/
def appointmentUpdateStatusView (db : DB) (pk : Nat) (new_status : String) :
    UpdateStatusResult × DB :=
  match findAppt db pk with
  | none => (.notFound, db)
  | some _ =>
    match parseStatus new_status with
    | none => (.invalidStatus, db)
    | some st =>
      if st = .completed then
        let r := appointmentCompleteView db pk
        (.routedToComplete r.1, r.2)
      else
        (.success, setStatus db pk st)

/-- Result of AppointmentBookingView.form_valid. -/
inductive BookingResult
  | rejected (reason : String)
  | booked
deriving DecidableEq

/-- A new appointment as created by AppointmentBookingView.form_valid: the
form carries only service, start_at and notes; `status` and `payment_state`
take the model field defaults (models.py lines 130-141) and `end_at` is
computed by Appointment.save (models.py lines 186-192). -/
def mkAppointment (id customer service : Nat) (start_at : Int)
    (duration_minutes : Nat) (notes : String) : Appointment :=
  { id := id
    customer := customer
    service := service
    start_at := start_at
    end_at := start_at + (duration_minutes : Int)
    status := .confirmed
    payment_state := .unpaid
    notes := notes
    cancelled_at := none
    cancelled_by := none
    cancellation_reason := ""
    refund_amount := 0 }

/-- AppointmentBookingView.form_valid (appointments/views.py lines 163-182). -/
def appointmentBookingView (db : DB) (now : Int) (userId : Nat) (service : Service)
    (start_at : Int) (notes : String) (newId : Nat) : BookingResult × DB :=
  let r := check_availability db now service start_at none
  if r.1 then
    (.booked, { db with appointments :=
        db.appointments ++ [mkAppointment newId userId service.id start_at
          service.duration_minutes notes] })
  else
    (.rejected (r.2.getD ""), db)

/-- Modelled from the spec: the Capacity Policy contract `effectiveCapacity`
of section 4.1 — look up any SlotCapacityOverride whose (date, timeStart,
timeEnd) matches the requested window; if found, return its maxSlots;
otherwise return ScheduleSettings.maxConcurrent. No code in the repository
performs this lookup; this definition exists to compare the spec against the
capacity checks actually implemented. -/
def effectiveCapacity (db : DB) (windowStart windowEnd : Int) : Nat :=
  match db.slot_limits.find? (fun sl =>
      sl.date == windowStart.ediv 1440 && sl.time_start == windowStart.emod 1440 &&
        sl.time_end == windowEnd.emod 1440) with
  | some sl => sl.max_slots
  | none => db.settings.max_concurrent

/-! Independent constraint predicates, written from the wording of the
Availability Resolver contract (spec section 4.3), used to state the
fixed-order short-circuit claim as a refinement. -/

/-- Past-time constraint violation: the candidate start is before now. -/
def pastViolation (now start_at : Int) : Bool :=
  decide (start_at < now)

/-- Booking-window constraint violation: the candidate start is beyond
`now + bookingWindowDays`. -/
def windowViolation (db : DB) (now start_at : Int) : Bool :=
  decide (start_at > now + (db.settings.booking_window_days : Int) * 1440)

/-- Blackout constraint violation: some stored BlockedRange overlaps the
candidate window, using the half-open overlap test of the model. -/
def blackoutViolation (db : DB) (start_at end_at : Int) : Bool :=
  db.blocked_ranges.any (fun b => b.overlaps start_at end_at)

/-- The first matching BlockedRange, whose reason is surfaced. -/
def blackoutHit (db : DB) (start_at end_at : Int) : Option BlockedRange :=
  db.blocked_ranges.find? (fun b => b.overlaps start_at end_at)

/-- Capacity constraint violation: the count of counted-status overlapping
appointments already reaches the capacity limit. -/
def capacityViolation (db : DB) (start_at end_at : Int)
    (exclude_appointment_id : Option Nat) : Bool :=
  decide (overlappingCount db start_at end_at exclude_appointment_id ≥
    db.settings.max_concurrent)

/-- Inventory constraint violation: some inventory requirement of the
service has stock below its per-occurrence quantity. -/
def inventoryViolation (db : DB) (service : Service) : Bool :=
  service.service_items.any (fun si =>
    decide (stockOf db.items si.itemId < si.qty_per_service))

/-- The first short-of-stock requirement, whose item name is surfaced. -/
def inventoryHit (db : DB) (service : Service) : Option ServiceItemReq :=
  service.service_items.find? (fun si =>
    decide (stockOf db.items si.itemId < si.qty_per_service))

/-- The Availability Resolver of spec section 4.3 as an ordered cascade over
the five independent constraint predicates, short-circuiting on the first
violation and reporting only its reason, with the reason strings of
views.check_availability. -/
def specAvailability (db : DB) (now : Int) (service : Service) (start_at : Int)
    (exclude_appointment_id : Option Nat) : Bool × Option String :=
  let end_at := start_at + (service.duration_minutes : Int)
  if pastViolation now start_at then
    (false, some "Cannot book appointments in the past")
  else if windowViolation db now start_at then
    (false, some ("Cannot book more than " ++ toString db.settings.booking_window_days
      ++ " days in advance"))
  else if blackoutViolation db start_at end_at then
    (false, some (match blackoutHit db start_at end_at with
      | some b => if b.reason != "" then "Time slot blocked: " ++ b.reason
          else "Time slot is blocked"
      | none => "Time slot is blocked"))
  else if capacityViolation db start_at end_at exclude_appointment_id then
    (false, some ("Time slot full (max " ++ toString db.settings.max_concurrent
      ++ " concurrent appointments)"))
  else if inventoryViolation db service then
    (false, some (match inventoryHit db service with
      | some si => "Insufficient inventory: " ++ itemName db.items si.itemId
      | none => "Insufficient inventory: "))
  else
    (true, none)

/-- The same ordered cascade with the reason strings of
utils.check_slot_availability. -/
def specSlotAvailability (db : DB) (now : Int) (service : Service)
    (start_at end_at : Int) : Bool × Option String :=
  if pastViolation now start_at then
    (false, some "Time has passed")
  else if windowViolation db now start_at then
    (false, some ("Beyond booking window (" ++ toString db.settings.booking_window_days
      ++ " days)"))
  else if blackoutViolation db start_at end_at then
    (false, some (match blackoutHit db start_at end_at with
      | some b => if b.reason != "" then b.reason else "Blocked"
      | none => "Blocked"))
  else if capacityViolation db start_at end_at none then
    (false, some "Full")
  else if inventoryViolation db service then
    (false, some (match inventoryHit db service with
      | some si => "No stock: " ++ itemName db.items si.itemId
      | none => "No stock: "))
  else
    (true, none)

/-! List lemmas relating queryset idioms: `.filter(...).first()` versus
`.find?`, and `.exists()` versus `.find?.isSome`. -/

theorem head?_filter {α : Type} (p : α → Bool) (l : List α) :
    (l.filter p).head? = l.find? p := by
  induction l with
  | nil => rfl
  | cons a t ih =>
    by_cases h : p a <;> simp [List.filter_cons, List.find?_cons, h, ih]

theorem any_eq_isSome_find? {α : Type} (p : α → Bool) (l : List α) :
    l.any p = (l.find? p).isSome := by
  induction l with
  | nil => rfl
  | cons a t ih =>
    by_cases h : p a <;> simp [List.any_cons, List.find?_cons, h, ih]

/-- The blackout predicate used inline by the querysets equals the model
method BlockedRange.overlaps. -/
theorem blocked_filter_eq_overlaps (start_at end_at : Int) :
    (fun b : BlockedRange => decide (b.start_at < end_at) && decide (b.end_at > start_at))
      = fun b => b.overlaps start_at end_at := by
  funext b
  simp only [BlockedRange.overlaps, gt_iff_lt]
  exact Bool.and_comm _ _

theorem check_availability_eq_spec (db : DB) (now : Int) (service : Service)
    (start_at : Int) (excl : Option Nat) :
    check_availability db now service start_at excl
      = specAvailability db now service start_at excl := by
  unfold check_availability specAvailability pastViolation
    windowViolation blackoutViolation blackoutHit
    capacityViolation inventoryViolation inventoryHit
  simp only [head?_filter, blocked_filter_eq_overlaps,
    any_eq_isSome_find?, decide_eq_true_eq, ge_iff_le, gt_iff_lt]
  by_cases h1 : start_at < now
  · simp [h1]
  · simp only [h1, if_false, if_neg h1]
    by_cases h2 : now + (db.settings.booking_window_days : Int) * 1440 < start_at
    · simp [h2]
    · simp only [h2, if_neg h2, if_false]
      cases hb : db.blocked_ranges.find? (fun b => b.overlaps start_at (start_at + (service.duration_minutes : Int))) with
      | some b => simp [hb]
      | none =>
        simp only [hb, Option.isSome_none, Bool.false_eq_true, if_false]
        by_cases h4 : db.settings.max_concurrent ≤ overlappingCount db start_at (start_at + (service.duration_minutes : Int)) excl
        · simp [h4]
        · simp only [h4, if_neg h4, if_false]
          cases hi : service.service_items.find? (fun si => decide (stockOf db.items si.itemId < si.qty_per_service)) with
          | some si => simp [hi]
          | none => simp [hi]

theorem check_slot_availability_eq_spec (db : DB) (now : Int) (service : Service)
    (start_at end_at : Int) (d : Nat) :
    check_slot_availability db now service start_at end_at d
      = specSlotAvailability db now service start_at end_at := by
  unfold check_slot_availability specSlotAvailability pastViolation
    windowViolation blackoutViolation blackoutHit
    capacityViolation inventoryViolation inventoryHit
  simp only [head?_filter, blocked_filter_eq_overlaps,
    any_eq_isSome_find?, decide_eq_true_eq, ge_iff_le, gt_iff_lt]
  by_cases h1 : start_at < now
  · simp [h1]
  · simp only [h1, if_false, if_neg h1]
    by_cases h2 : now + (db.settings.booking_window_days : Int) * 1440 < start_at
    · simp [h2]
    · simp only [h2, if_neg h2, if_false]
      cases hb : db.blocked_ranges.find? (fun b => b.overlaps start_at end_at) with
      | some b => simp [hb]
      | none =>
        simp only [hb, Option.isSome_none, Bool.false_eq_true, if_false]
        by_cases h4 : db.settings.max_concurrent ≤ overlappingCount db start_at end_at none
        · simp [h4]
        · simp only [h4, if_neg h4, if_false]
          cases hi : service.service_items.find? (fun si => decide (stockOf db.items si.itemId < si.qty_per_service)) with
          | some si => simp [hi]
          | none => simp [hi]

/-! Concrete fixture states used by counterexamples and witnesses. -/

/-- A service with no inventory requirements, 60 minutes long. -/
def svcPlain : Service :=
  { id := 1, duration_minutes := 60, is_active := true, service_items := [] }

/-- A service requiring 10 units of item 1 per occurrence, 60 minutes long. -/
def svcShampoo : Service :=
  { id := 2, duration_minutes := 60, is_active := true,
    service_items := [{ itemId := 1, qty_per_service := 10 }] }

/-- An appointment record with the given id, customer, service, window and
status, all other fields at their creation defaults. -/
def mkAppt (id customer service : Nat) (s e : Int) (st : Status) : Appointment :=
  { id := id, customer := customer, service := service, start_at := s, end_at := e,
    status := st, payment_state := .unpaid, notes := "", cancelled_at := none,
    cancelled_by := none, cancellation_reason := "", refund_amount := 0 }

/-- Default settings: max_concurrent 3, booking window 30 days, prevent
completion on insufficient stock. -/
def defaultSettings : AppointmentSettings :=
  { max_concurrent := 3, booking_window_days := 30,
    prevent_completion_on_insufficient_stock := true }

/-- Fixture for C1: a SlotLimit override (day 100, 09:00-10:00, max 1 slot)
and one confirmed appointment occupying that window. -/
def dbSlotLimit : DB :=
  { settings := defaultSettings
    services := [svcPlain]
    items := []
    appointments := [mkAppt 10 5 1 144540 144600 .confirmed]
    blocked_ranges := []
    slot_limits := [{ date := 100, time_start := 540, time_end := 600,
                      max_slots := 1, reason := "Staff absent" }]
    payments := [] }

/-- Fixture for C2: one cancelled (terminal) appointment, and one confirmed
appointment, ids 1 and 2. -/
def dbTerminal : DB :=
  { settings := defaultSettings
    services := [svcPlain]
    items := []
    appointments := [mkAppt 1 7 1 1000 1060 .cancelled, mkAppt 2 7 1 2000 2060 .confirmed]
    blocked_ranges := []
    slot_limits := []
    payments := [] }

/-- Fixture for C3: one confirmed appointment (id 1, customer 7) starting at
minute 3000 (50 hours after minute 0), with a PAID payment of 1000. -/
def dbPaidConfirmed : DB :=
  { settings := defaultSettings
    services := [svcPlain]
    items := []
    appointments := [mkAppt 1 7 1 3000 3060 .confirmed]
    blocked_ranges := []
    slot_limits := []
    payments := [{ appointment := 1, amount := 1000, status := .paid }] }

/-- A staff user. -/
def staffUser : User := { id := 2, role := .staff }

/-! Lemmas about keyed lookup in the item and appointment tables. -/

/-- applyDeduct preserves the list of item ids. -/
theorem applyDeduct_ids (items : List Item) (si : ServiceItemReq) :
    (applyDeduct items si).map (fun it => it.id) = items.map (fun it => it.id) := by
  induction items with
  | nil => rfl
  | cons a t ih =>
    simp only [applyDeduct, List.map_cons] at ih ⊢
    by_cases h : a.id == si.itemId <;>
      simp only [h, if_true, if_false, Bool.false_eq_true, List.map_cons, ih]

/-- Lookup by id after an id-preserving map over the item table. -/
theorem items_find?_map (f : Item → Item) (hf : ∀ it, (f it).id = it.id)
    (items : List Item) (j : Nat) :
    (items.map f).find? (fun it => it.id == j) =
      Option.map f (items.find? (fun it => it.id == j)) := by
  induction items with
  | nil => rfl
  | cons a t ih =>
    simp only [List.map_cons, List.find?_cons, hf a]
    by_cases h : a.id == j <;> simp [h, ih]

/-- Deducting one requirement does not change the stock of other item ids. -/
theorem stockOf_applyDeduct_ne (items : List Item) (si : ServiceItemReq) (j : Nat)
    (hj : j ≠ si.itemId) :
    stockOf (applyDeduct items si) j = stockOf items j := by
  unfold stockOf applyDeduct
  rw [items_find?_map _ (fun it => by by_cases h : it.id == si.itemId <;> simp [h])]
  cases hfind : items.find? (fun it => it.id == j) with
  | none => rfl
  | some it =>
    have hid : it.id = j := by
      have := List.find?_some hfind
      simpa using this
    simp only [Option.map_some]
    have hne : it.id ≠ si.itemId := fun hcontra => hj (hid ▸ hcontra)
    simp [hne]

/-- Deducting a requirement whose item is present subtracts exactly its
per-occurrence quantity from the stock of that item. -/
theorem stockOf_applyDeduct_eq (items : List Item) (si : ServiceItemReq)
    (it0 : Item) (hfind : items.find? (fun it => it.id == si.itemId) = some it0) :
    stockOf (applyDeduct items si) si.itemId = stockOf items si.itemId - si.qty_per_service := by
  unfold stockOf applyDeduct
  rw [items_find?_map _ (fun it => by by_cases h : it.id == si.itemId <;> simp [h])]
  rw [hfind]
  have hid : it0.id = si.itemId := by
    have := List.find?_some hfind
    simpa using this
  simp [hid]

/-- applyDeduct preserves presence of any item id. -/
theorem applyDeduct_find?_isSome (items : List Item) (si : ServiceItemReq) (j : Nat) :
    ((applyDeduct items si).find? (fun it => it.id == j)).isSome
      = (items.find? (fun it => it.id == j)).isSome := by
  unfold applyDeduct
  rw [items_find?_map _ (fun it => by by_cases h : it.id == si.itemId <;> simp [h])]
  cases items.find? (fun it => it.id == j) <;> rfl

/-- With pairwise-distinct item ids, lookup of the id of a member returns that member. -/
theorem find?_mem_nodup (items : List Item) (it : Item)
    (hnd : (items.map (fun x => x.id)).Nodup) (hmem : it ∈ items) :
    items.find? (fun x => x.id == it.id) = some it := by
  induction items with
  | nil => cases hmem
  | cons a t ih =>
    simp only [List.map_cons, List.nodup_cons] at hnd
    rcases List.mem_cons.mp hmem with rfl | hmem'
    · simp [List.find?_cons]
    · have hne : a.id ≠ it.id := by
        intro hContra
        exact hnd.1 (hContra ▸ List.mem_map_of_mem (fun x => x.id) hmem')
      simp only [List.find?_cons]
      have : (a.id == it.id) = false := by simpa using hne
      rw [this]
      exact ih hnd.2 hmem'

/-- Items required by no requirement keep their stock across the whole
deduction loop. -/
theorem stockOf_deductStock_not_required (reqs : List ServiceItemReq)
    (items : List Item) (j : Nat) (hj : ∀ si ∈ reqs, si.itemId ≠ j) :
    stockOf (deductStock items reqs) j = stockOf items j := by
  induction reqs generalizing items with
  | nil => rfl
  | cons si rest ih =>
    show stockOf (deductStock (applyDeduct items si) rest) j = _
    rw [ih (applyDeduct items si) (fun sj hsj => hj sj (List.mem_cons_of_mem si hsj))]
    exact stockOf_applyDeduct_ne items si j
      (fun hcontra => hj si (List.mem_cons_self si rest) hcontra.symm)

/-- Presence of an item id survives the whole deduction loop. -/
theorem deductStock_find?_isSome (reqs : List ServiceItemReq)
    (items : List Item) (j : Nat) :
    ((deductStock items reqs).find? (fun it => it.id == j)).isSome
      = (items.find? (fun it => it.id == j)).isSome := by
  induction reqs generalizing items with
  | nil => rfl
  | cons si rest ih =>
    show ((deductStock (applyDeduct items si) rest).find? _).isSome = _
    rw [ih (applyDeduct items si)]
    exact applyDeduct_find?_isSome items si j

/-- When the requirement item ids are pairwise distinct and the item is
present, the deduction loop subtracts exactly the per-occurrence quantity of
each requirement from the stock of its item. -/
theorem stockOf_deductStock_required (reqs : List ServiceItemReq)
    (items : List Item) (hnd : (reqs.map (fun si => si.itemId)).Nodup)
    (si : ServiceItemReq) (hsi : si ∈ reqs)
    (hpres : (items.find? (fun it => it.id == si.itemId)).isSome) :
    stockOf (deductStock items reqs) si.itemId
      = stockOf items si.itemId - si.qty_per_service := by
  induction reqs generalizing items with
  | nil => cases hsi
  | cons sj rest ih =>
    simp only [List.map_cons, List.nodup_cons] at hnd
    rcases List.mem_cons.mp hsi with rfl | hmem
    · show stockOf (deductStock (applyDeduct items si) rest) si.itemId = _
      obtain ⟨it0, hit0⟩ := Option.isSome_iff_exists.mp hpres
      rw [stockOf_deductStock_not_required rest (applyDeduct items si) si.itemId
        (fun sk hsk hcontra => hnd.1 (hcontra ▸ List.mem_map_of_mem (fun x => x.itemId) hsk))]
      exact stockOf_applyDeduct_eq items si it0 hit0
    · show stockOf (deductStock (applyDeduct items sj) rest) si.itemId = _
      have hne : sj.itemId ≠ si.itemId := by
        intro hcontra
        exact hnd.1 (hcontra ▸ List.mem_map_of_mem (fun x => x.itemId) hmem)
      rw [ih (applyDeduct items sj) hnd.2 hmem
        (by rw [applyDeduct_find?_isSome]; exact hpres)]
      rw [stockOf_applyDeduct_ne items sj si.itemId (fun h => hne h.symm)]

/-- If every stock is nonnegative, item ids are pairwise distinct, the
requirement item ids are pairwise distinct, and every requirement is met,
then every stock is still nonnegative after the deduction loop. -/
theorem deductStock_nonneg (reqs : List ServiceItemReq) (items : List Item)
    (hitems : (items.map (fun it => it.id)).Nodup)
    (hreqs : (reqs.map (fun si => si.itemId)).Nodup)
    (hpos : ∀ it ∈ items, 0 ≤ it.stock)
    (hmet : ∀ si ∈ reqs, si.qty_per_service ≤ stockOf items si.itemId) :
    ∀ it ∈ deductStock items reqs, 0 ≤ it.stock := by
  induction reqs generalizing items with
  | nil => exact hpos
  | cons si rest ih =>
    simp only [List.map_cons, List.nodup_cons] at hreqs
    show ∀ it ∈ deductStock (applyDeduct items si) rest, 0 ≤ it.stock
    apply ih (applyDeduct items si)
    · rw [applyDeduct_ids]; exact hitems
    · exact hreqs.2
    · intro it' hmem'
      simp only [applyDeduct, List.mem_map] at hmem'
      obtain ⟨it, hit, rfl⟩ := hmem'
      by_cases h : it.id == si.itemId
      · have hid : it.id = si.itemId := by simpa using h
        have hfind : items.find? (fun x => x.id == it.id) = some it :=
          find?_mem_nodup items it hitems hit
        have hstock : stockOf items si.itemId = it.stock := by
          unfold stockOf
          rw [← hid, hfind]
        have hqty : si.qty_per_service ≤ it.stock := by
          rw [← hstock]
          exact hmet si (List.mem_cons_self si rest)
        simp only [h, if_true]
        linarith
      · simp only [h, Bool.false_eq_true, if_false]
        exact hpos it hit
    · intro sj hsj
      have hne : sj.itemId ≠ si.itemId := by
        intro hcontra
        exact hreqs.1 (hcontra ▸ List.mem_map_of_mem (fun x => x.itemId) hsj)
      rw [stockOf_applyDeduct_ne items si sj.itemId hne]
      exact hmet sj (List.mem_cons_of_mem si hsj)

/-- Lookup by primary key after a status update on the appointment table. -/
theorem appts_find?_map (f : Appointment → Appointment)
    (hf : ∀ a, (f a).id = a.id) (l : List Appointment) (j : Nat) :
    (l.map f).find? (fun a => a.id == j) =
      Option.map f (l.find? (fun a => a.id == j)) := by
  induction l with
  | nil => rfl
  | cons a t ih =>
    simp only [List.map_cons, List.find?_cons, hf a]
    by_cases h : a.id == j <;> simp [h, ih]

/-- findAppt after setStatus: the fetched appointment comes back with the
new status. -/
theorem findAppt_setStatus (db : DB) (pk : Nat) (st : Status) :
    findAppt (setStatus db pk st) pk
      = Option.map (fun a => { a with status := st }) (findAppt db pk) := by
  unfold findAppt setStatus
  rw [appts_find?_map _ (fun a => by by_cases h : a.id == pk <;> simp [h])]
  cases hfind : db.appointments.find? (fun a => a.id == pk) with
  | none => rfl
  | some a =>
    have hid : a.id = pk := by
      have := List.find?_some hfind
      simpa using this
    simp [hid]

/-! Claim theorems. -/

/-- C1: the claim says that a matching SlotCapacityOverride (SlotLimit)
changes the capacity limit used by the availability checks. The code never
consults SlotLimit: at a state holding an override of max_slots = 1 exactly
matching the requested window (day 100, 09:00-10:00) with one confirmed
overlapping appointment and ScheduleSettings.max_concurrent = 3, both
availability checks still report the slot available, although under the
override limit (effectiveCapacity = 1 ≤ count 1) the slot would be full. -/
theorem c1_capacity_ignores_slot_limit :
    check_availability dbSlotLimit 144000 svcPlain 144540 none = (true, none) ∧
    check_slot_availability dbSlotLimit 144000 svcPlain 144540 144600 60 = (true, none) ∧
    effectiveCapacity dbSlotLimit 144540 144600 = 1 ∧
    overlappingCount dbSlotLimit 144540 144600 none = 1 ∧
    dbSlotLimit.settings.max_concurrent = 3 := by
  refine ⟨by decide, by decide, by decide, by decide, by decide⟩

/-- C7: both availability checks evaluate their constraints in the fixed
order past-time, booking-window, blackout, capacity, inventory, short-circuit
on the first violated constraint reporting only its reason, and return
(available, no reason) when no constraint is violated: each equals the
ordered cascade over the five independent constraint predicates. -/
theorem c7_fixed_order_short_circuit :
    (∀ (db : DB) (now : Int) (service : Service) (start_at : Int)
        (excl : Option Nat),
      check_availability db now service start_at excl
        = specAvailability db now service start_at excl) ∧
    (∀ (db : DB) (now : Int) (service : Service) (start_at end_at : Int) (d : Nat),
      check_slot_availability db now service start_at end_at d
        = specSlotAvailability db now service start_at end_at) :=
  ⟨check_availability_eq_spec, check_slot_availability_eq_spec⟩

/-- C10: the capacity count of the availability checks counts exactly the
appointments with a counted status (Pending, Confirmed, InProgress) whose
window overlaps the candidate window, and it is invariant under arbitrary
reassignment of the service and customer of every stored appointment: capacity is
a global per-window quantity, not tracked per service or per customer. -/
theorem c10_capacity_counts_all_services :
    (∀ (db : DB) (s e : Int),
      overlappingCount db s e none = (db.appointments.filter (fun a =>
        decide (a.start_at < e) && decide (a.end_at > s) &&
          decide (a.status ∈ countedStatuses))).length) ∧
    (∀ (db : DB) (s e : Int) (g h : Appointment → Nat),
      overlappingCount
          { db with appointments :=
              (db.appointments.map (fun a => { a with service := g a, customer := h a })) }
          s e none
        = overlappingCount db s e none) := by
  refine ⟨fun db s e => rfl, fun db s e g h => ?_⟩
  unfold overlappingCount overlappingAppointments
  simp only [List.filter_map, List.length_map]
  congr 1

/-- C2 counterexample: the generic UpdateStatus operation has no terminal
guard. On appointment 1, which is Cancelled (terminal), posting status
"confirmed" succeeds and moves it out of the terminal status; on
appointment 2, which is Confirmed, posting "cancelled" sets Cancelled
directly without going through the Cancel operation. -/
theorem c2_counterexample :
    appointmentUpdateStatusView dbTerminal 1 "confirmed"
      = (.success, setStatus dbTerminal 1 .confirmed) ∧
    findAppt (appointmentUpdateStatusView dbTerminal 1 "confirmed").2 1
      = some (mkAppt 1 7 1 1000 1060 .confirmed) ∧
    appointmentUpdateStatusView dbTerminal 2 "cancelled"
      = (.success, setStatus dbTerminal 2 .cancelled) ∧
    findAppt (appointmentUpdateStatusView dbTerminal 2 "cancelled").2 2
      = some (mkAppt 2 7 1 2000 2060 .cancelled) := by
  refine ⟨by decide, by decide, by decide, by decide⟩

/-- C2 amended: UpdateStatus rejects unknown status values without change,
and a Completed target is always routed through the Complete operation (so
UpdateStatus never sets Completed directly); it does not, however, guard
terminal statuses (see the counterexample). -/
theorem c2_update_status_amended :
    (∀ (db : DB) (pk : Nat) (s : String) (a : Appointment),
      findAppt db pk = some a → parseStatus s = none →
      appointmentUpdateStatusView db pk s = (.invalidStatus, db)) ∧
    (∀ (db : DB) (pk : Nat),
      (appointmentUpdateStatusView db pk "completed").2
        = (appointmentCompleteView db pk).2) ∧
    (∀ (db : DB) (pk : Nat) (a : Appointment),
      findAppt db pk = some a →
      appointmentUpdateStatusView db pk "completed"
        = (.routedToComplete (appointmentCompleteView db pk).1,
            (appointmentCompleteView db pk).2)) := by
  refine ⟨?_, ?_, ?_⟩
  · intro db pk s a h1 h2
    unfold appointmentUpdateStatusView
    rw [h1, h2]
  · intro db pk
    unfold appointmentUpdateStatusView
    cases hf : findAppt db pk with
    | none =>
      unfold appointmentCompleteView
      rw [hf]
    | some a =>
      have hp : parseStatus "completed" = some Status.completed := rfl
      rw [hp]
      rfl
  · intro db pk a h1
    unfold appointmentUpdateStatusView
    rw [h1]
    have hp : parseStatus "completed" = some Status.completed := rfl
    rw [hp]
    rfl

/-- C2 amended witness: on the concrete terminal fixture, an unknown status
string is rejected without change, and a "completed" post on appointment 2
is routed through Complete (which rejects it, as it is not InProgress). -/
theorem c2_update_status_amended_witness :
    appointmentUpdateStatusView dbTerminal 2 "bogus" = (.invalidStatus, dbTerminal) ∧
    appointmentUpdateStatusView dbTerminal 2 "completed"
      = (.routedToComplete (appointmentCompleteView dbTerminal 2).1,
          (appointmentCompleteView dbTerminal 2).2) := by
  constructor
  · exact c2_update_status_amended.1 dbTerminal 2 "bogus"
      (mkAppt 2 7 1 2000 2060 .confirmed) (by decide) (by decide)
  · exact c2_update_status_amended.2.2 dbTerminal 2
      (mkAppt 2 7 1 2000 2060 .confirmed) (by decide)

/-- C3: the public cancellation operation (AppointmentCancelView) only sets
status = Cancelled and saves: at a state with a Confirmed appointment
holding a PAID payment of 1000 and 50 hours until start, the view leaves
refund_amount = 0, cancelled_at = none and cancelled_by = none, although
the own model method Appointment.cancel / calculate_refund (never invoked by the
view) would have recorded a 100 percent refund of 1000. -/
theorem c3_cancel_view_drops_refund :
    appointmentCancelView dbPaidConfirmed staffUser 1
      = (.success, setStatus dbPaidConfirmed 1 .cancelled) ∧
    findAppt (appointmentCancelView dbPaidConfirmed staffUser 1).2 1
      = some (mkAppt 1 7 1 3000 3060 .cancelled) ∧
    (mkAppt 1 7 1 3000 3060 .cancelled).refund_amount = 0 ∧
    (mkAppt 1 7 1 3000 3060 .cancelled).cancelled_at = none ∧
    (mkAppt 1 7 1 3000 3060 .cancelled).cancelled_by = none ∧
    calculate_refund dbPaidConfirmed (mkAppt 1 7 1 3000 3060 .confirmed) 0 = (100, 1000) ∧
    (Appointment.cancel dbPaidConfirmed (mkAppt 1 7 1 3000 3060 .confirmed) 0 2
        "reason").1.refund_amount = 1000 := by
  have hfind : paidPaymentOf dbPaidConfirmed (mkAppt 1 7 1 3000 3060 .confirmed).id
      = some { appointment := 1, amount := 1000, status := .paid } := by decide
  have hrefund : calculate_refund dbPaidConfirmed (mkAppt 1 7 1 3000 3060 .confirmed) 0
      = (100, 1000) := by
    unfold calculate_refund
    rw [hfind]
    norm_num [hoursUntil, mkAppt]
  refine ⟨by decide, by decide, by decide, by decide, by decide, hrefund, ?_⟩
  simp only [Appointment.cancel, hrefund]

/-- C4: the tiered refund policy of Appointment.calculate_refund. With a
PAID payment p attached: strictly more than 48 hours until start gives
(100 percent, full amount); more than 24 and up to 48 hours (including
exactly 48h00m) gives (50 percent, half the amount); up to 24 hours
(including exactly 24h00m) gives (0, 0). With no PAID payment it returns
(0, 0). -/
theorem c4_refund_tiers :
    ∀ (db : DB) (a : Appointment) (now : Int),
      (∀ p, paidPaymentOf db a.id = some p →
        (hoursUntil a.start_at now > 48 →
          calculate_refund db a now = (100, p.amount)) ∧
        (24 < hoursUntil a.start_at now ∧ hoursUntil a.start_at now ≤ 48 →
          calculate_refund db a now = (50, p.amount / 2)) ∧
        (hoursUntil a.start_at now ≤ 24 →
          calculate_refund db a now = (0, 0))) ∧
      (paidPaymentOf db a.id = none → calculate_refund db a now = (0, 0)) := by
  intro db a now
  constructor
  · intro p hp
    refine ⟨?_, ?_, ?_⟩
    · intro h48
      simp only [calculate_refund, hp]
      rw [if_pos h48]
      norm_num
    · rintro ⟨h24, h48⟩
      simp only [calculate_refund, hp]
      rw [if_neg (not_lt.mpr h48), if_pos h24]
      rw [Prod.mk.injEq]
      refine ⟨rfl, by ring⟩
    · intro h24
      simp only [calculate_refund, hp]
      rw [if_neg (not_lt.mpr (h24.trans (by norm_num))), if_neg (not_lt.mpr h24)]
      norm_num
  · intro hp
    simp only [calculate_refund, hp]

/-- C4 witness: with a paid amount of 1000, cancelling at exactly 48 hours
before start yields (50, 500), at exactly 24 hours yields (0, 0), and with
no paid payment the refund is (0, 0). -/
theorem c4_refund_tiers_witness :
    calculate_refund dbPaidConfirmed (mkAppt 1 7 1 2880 2940 .confirmed) 0 = (50, 500) ∧
    calculate_refund dbPaidConfirmed (mkAppt 1 7 1 1440 1500 .confirmed) 0 = (0, 0) ∧
    calculate_refund dbTerminal (mkAppt 1 7 1 2880 2940 .confirmed) 0 = (0, 0) := by
  refine ⟨?_, ?_, ?_⟩
  · have hh : (24 : ℚ) < hoursUntil (mkAppt 1 7 1 2880 2940 .confirmed).start_at 0 ∧
        hoursUntil (mkAppt 1 7 1 2880 2940 .confirmed).start_at 0 ≤ 48 := by
      norm_num [hoursUntil, mkAppt]
    have h := ((c4_refund_tiers dbPaidConfirmed (mkAppt 1 7 1 2880 2940 .confirmed) 0).1
      { appointment := 1, amount := 1000, status := .paid } (by decide)).2.1 hh
    rw [h]
    norm_num
  · have hh : hoursUntil (mkAppt 1 7 1 1440 1500 .confirmed).start_at 0 ≤ 24 := by
      norm_num [hoursUntil, mkAppt]
    exact ((c4_refund_tiers dbPaidConfirmed (mkAppt 1 7 1 1440 1500 .confirmed) 0).1
      { appointment := 1, amount := 1000, status := .paid } (by decide)).2.2 hh
  · exact (c4_refund_tiers dbTerminal (mkAppt 1 7 1 2880 2940 .confirmed) 0).2 (by decide)

/-- C8: on an appointment in a terminal status (Completed, NoShow or
Cancelled), the public cancellation operation — invoked by an actor it does
not turn away on ownership grounds — is rejected as an invalid transition
and leaves the datastore unchanged; in particular a second cancellation of
a Cancelled appointment is rejected, so no refund field is ever touched
twice. -/
theorem c8_cancel_terminal_rejected :
    ∀ (db : DB) (user : User) (pk : Nat) (a : Appointment),
      findAppt db pk = some a →
      a.status ∈ [Status.completed, Status.no_show, Status.cancelled] →
      ¬(user.role = .customer ∧ a.customer ≠ user.id) →
      appointmentCancelView db user pk = (.invalidStatus, db) := by
  intro db user pk a h1 h2 h3
  simp only [appointmentCancelView, h1]
  rw [if_neg h3, if_pos h2]

/-- C8 witness: a staff user cancelling the already-Cancelled appointment 1
of the terminal fixture is rejected with the state unchanged. -/
theorem c8_cancel_terminal_rejected_witness :
    appointmentCancelView dbTerminal staffUser 1 = (.invalidStatus, dbTerminal) :=
  c8_cancel_terminal_rejected dbTerminal staffUser 1 (mkAppt 1 7 1 1000 1060 .cancelled)
    (by decide) (by decide) (by decide)

/-- C9: every appointment created by the customer booking flow carries the
model field defaults: when the booking view succeeds, the stored record is
mkAppointment, whose status is Confirmed (never Pending) and whose payment
state is Unpaid. -/
theorem c9_booking_default_status :
    ∀ (db : DB) (now : Int) (userId : Nat) (service : Service) (start_at : Int)
      (notes : String) (newId : Nat) (db2 : DB),
      appointmentBookingView db now userId service start_at notes newId = (.booked, db2) →
      db2.appointments = db.appointments ++
        [mkAppointment newId userId service.id start_at service.duration_minutes notes] ∧
      (mkAppointment newId userId service.id start_at service.duration_minutes notes).status
        = .confirmed ∧
      (mkAppointment newId userId service.id start_at service.duration_minutes
        notes).payment_state = .unpaid ∧
      (mkAppointment newId userId service.id start_at service.duration_minutes notes).status
        ≠ .pending := by
  intro db now userId service start_at notes newId db2 hb
  unfold appointmentBookingView at hb
  by_cases h : (check_availability db now service start_at none).1
  · rw [if_pos h] at hb
    injection hb with hb1 hb2
    refine ⟨by rw [← hb2], rfl, rfl, fun hcontra => Status.noConfusion hcontra⟩
  · rw [if_neg h] at hb
    injection hb with hb1 hb2
    exact BookingResult.noConfusion hb1

/-- An empty-booking fixture and the state after one successful booking. -/
def dbEmpty : DB :=
  { settings := defaultSettings
    services := [svcPlain]
    items := []
    appointments := []
    blocked_ranges := []
    slot_limits := []
    payments := [] }

/-- The expected state after booking service 1 at minute 100 in dbEmpty. -/
def dbBooked : DB :=
  { dbEmpty with appointments := [mkAppointment 1 7 1 100 60 ""] }

/-- C9 witness: a concrete successful booking stores mkAppointment, with
status Confirmed, payment state Unpaid, and status not Pending. -/
theorem c9_booking_default_status_witness :
    dbBooked.appointments = dbEmpty.appointments ++ [mkAppointment 1 7 svcPlain.id 100
      svcPlain.duration_minutes ""] ∧
    (mkAppointment 1 7 svcPlain.id 100 svcPlain.duration_minutes "").status = .confirmed ∧
    (mkAppointment 1 7 svcPlain.id 100 svcPlain.duration_minutes "").payment_state = .unpaid ∧
    (mkAppointment 1 7 svcPlain.id 100 svcPlain.duration_minutes "").status ≠ .pending :=
  c9_booking_default_status dbEmpty 0 7 svcPlain 100 "" 1 dbBooked (by decide)

/-- Fixture for C5: prevent_completion_on_insufficient_stock is OFF, item 1
has stock 5, the service requires 10 per occurrence, and appointment 1 is
InProgress. -/
def dbNoPrevent : DB :=
  { settings := { max_concurrent := 3, booking_window_days := 30,
                  prevent_completion_on_insufficient_stock := false }
    services := [svcShampoo]
    items := [{ id := 1, name := "ItemName", stock := 5 }]
    appointments := [mkAppt 1 7 2 1000 1060 .in_progress]
    blocked_ranges := []
    slot_limits := []
    payments := [] }

/-- C5 counterexample: with preventCompletionOnInsufficientStock = false,
completing an InProgress appointment whose service requires 10 units of an
item stocked at 5 succeeds and drives that stock to -5 < 0. -/
theorem c5_counterexample :
    dbNoPrevent.settings.prevent_completion_on_insufficient_stock = false ∧
    stockOf dbNoPrevent.items 1 = 5 ∧
    (appointmentCompleteView dbNoPrevent 1).1 = .success ∧
    stockOf (appointmentCompleteView dbNoPrevent 1).2.items 1 = -5 ∧
    stockOf (appointmentCompleteView dbNoPrevent 1).2.items 1 < 0 := by
  refine ⟨rfl, ?_, by decide, ?_, ?_⟩
  · norm_num [dbNoPrevent, stockOf, List.find?]
  · norm_num [appointmentCompleteView, dbNoPrevent, findAppt, mkAppt, serviceItemsOf,
      svcShampoo, insufficientItems, stockOf, itemName, deductStock, applyDeduct, setStatus,
      List.find?, List.filter, List.foldl]
  · norm_num [appointmentCompleteView, dbNoPrevent, findAppt, mkAppt, serviceItemsOf,
      svcShampoo, insufficientItems, stockOf, itemName, deductStock, applyDeduct, setStatus,
      List.find?, List.filter, List.foldl]

/-- C5 amended: when preventCompletionOnInsufficientStock is true, the
Complete operation never leaves the stock of any item negative, given the
database uniqueness invariants (distinct item primary keys, and distinct
item ids among the requirements of a service per unique_together) and
nonnegative stocks beforehand. When the flag is false the guarantee fails
(see the counterexample). -/
theorem c5_stock_nonneg_when_prevent_enabled :
    ∀ (db : DB) (pk : Nat),
      db.settings.prevent_completion_on_insufficient_stock = true →
      (db.items.map (fun it => it.id)).Nodup →
      (∀ a, findAppt db pk = some a →
        ((serviceItemsOf db a.service).map (fun si => si.itemId)).Nodup) →
      (∀ it ∈ db.items, 0 ≤ it.stock) →
      ∀ it ∈ (appointmentCompleteView db pk).2.items, 0 ≤ it.stock := by
  intro db pk hprev hitems hreqs hpos
  cases hf : findAppt db pk with
  | none =>
    have hv : appointmentCompleteView db pk = (.notFound, db) := by
      simp only [appointmentCompleteView, hf]
    rw [hv]
    exact hpos
  | some a =>
    by_cases hst : a.status = .in_progress
    · by_cases hins : db.settings.prevent_completion_on_insufficient_stock = true ∧
          insufficientItems db (serviceItemsOf db a.service) ≠ []
      · have hv : appointmentCompleteView db pk
            = (.insufficientStock (insufficientItems db (serviceItemsOf db a.service)), db) := by
          simp only [appointmentCompleteView, hf]
          rw [if_neg (fun hcontra => hcontra hst), if_pos hins]
        rw [hv]
        exact hpos
      · have hv : appointmentCompleteView db pk
            = (.success, setStatus
                { db with items := deductStock db.items (serviceItemsOf db a.service) }
                pk .completed) := by
          simp only [appointmentCompleteView, hf]
          rw [if_neg (fun hcontra => hcontra hst), if_neg hins]
        rw [hv]
        have hempty : insufficientItems db (serviceItemsOf db a.service) = [] := by
          by_contra hne
          exact hins ⟨hprev, hne⟩
        have hmet : ∀ si ∈ serviceItemsOf db a.service,
            si.qty_per_service ≤ stockOf db.items si.itemId := by
          intro si hsi
          by_contra hlt
          push_neg at hlt
          have hmemf : si ∈ (serviceItemsOf db a.service).filter (fun si =>
              decide (stockOf db.items si.itemId < si.qty_per_service)) :=
            List.mem_filter.mpr ⟨hsi, by simpa using hlt⟩
          have hmemm : itemName db.items si.itemId
              ∈ insufficientItems db (serviceItemsOf db a.service) :=
            List.mem_map_of_mem _ hmemf
          rw [hempty] at hmemm
          cases hmemm
        exact deductStock_nonneg _ db.items hitems (hreqs a hf) hpos hmet
    · have hv : appointmentCompleteView db pk = (.notInProgress, db) := by
        simp only [appointmentCompleteView, hf]
        rw [if_pos hst]
      rw [hv]
      exact hpos

/-- Fixture for the C5 witness: prevent flag ON, stock 10 exactly meets the
requirement of 10, appointment 1 InProgress. -/
def dbPreventOk : DB :=
  { settings := defaultSettings
    services := [svcShampoo]
    items := [{ id := 1, name := "ItemName", stock := 10 }]
    appointments := [mkAppt 1 7 2 1000 1060 .in_progress]
    blocked_ranges := []
    slot_limits := []
    payments := [] }

/-- C5 witness: on the concrete prevent-enabled fixture (stock 10, need 10)
the stock of item 1 is still nonnegative after Complete. -/
theorem c5_stock_nonneg_witness :
    0 ≤ stockOf (appointmentCompleteView dbPreventOk 1).2.items 1 := by
  have h := c5_stock_nonneg_when_prevent_enabled dbPreventOk 1 rfl (by decide) ?_ ?_
  · have hitems : (appointmentCompleteView dbPreventOk 1).2.items
        = [{ id := 1, name := "ItemName", stock := 0 }] := by
      norm_num [appointmentCompleteView, dbPreventOk, findAppt, mkAppt, serviceItemsOf,
        svcShampoo, insufficientItems, stockOf, itemName, deductStock, applyDeduct, setStatus,
        List.find?, List.filter, List.foldl]
    rw [hitems] at h ⊢
    exact h { id := 1, name := "ItemName", stock := 0 } (List.mem_singleton.mpr rfl)
  · intro a ha
    have hv : findAppt dbPreventOk 1 = some (mkAppt 1 7 2 1000 1060 .in_progress) := by
      decide
    rw [hv] at ha
    injection ha with ha'
    rw [← ha']
    decide
  · intro it hit
    simp only [dbPreventOk, List.mem_singleton] at hit
    rw [hit]
    norm_num

/-- A name is listed by insufficientItems exactly when it names a required
item whose stock is below its per-occurrence quantity. -/
theorem mem_insufficientItems (db : DB) (reqs : List ServiceItemReq) (n : String) :
    n ∈ insufficientItems db reqs ↔
      ∃ si ∈ reqs, stockOf db.items si.itemId < si.qty_per_service ∧
        n = itemName db.items si.itemId := by
  unfold insufficientItems
  simp only [List.mem_map, List.mem_filter, decide_eq_true_eq]
  constructor
  · rintro ⟨si, ⟨hmem, hlt⟩, rfl⟩
    exact ⟨si, hmem, hlt, rfl⟩
  · rintro ⟨si, hmem, hlt, rfl⟩
    exact ⟨si, ⟨hmem, hlt⟩, rfl⟩

/-- C6: the Complete operation (i) rejects any appointment that is not
InProgress, unchanged; (ii) when the prevent flag is on and some requirement
is unmet, rejects with exactly the deficient item names and mutates nothing;
(iii) otherwise succeeds, decrementing the stock of each required item by its
per-occurrence quantity (under the database uniqueness invariants), leaving
unrequired items untouched, and setting the appointment status to
Completed. -/
theorem c6_complete_contract :
    (∀ (db : DB) (pk : Nat) (a : Appointment),
      findAppt db pk = some a → a.status ≠ .in_progress →
      appointmentCompleteView db pk = (.notInProgress, db)) ∧
    (∀ (db : DB) (pk : Nat) (a : Appointment),
      findAppt db pk = some a → a.status = .in_progress →
      db.settings.prevent_completion_on_insufficient_stock = true →
      insufficientItems db (serviceItemsOf db a.service) ≠ [] →
      appointmentCompleteView db pk
        = (.insufficientStock (insufficientItems db (serviceItemsOf db a.service)), db) ∧
      (∀ n, n ∈ insufficientItems db (serviceItemsOf db a.service) ↔
        ∃ si ∈ serviceItemsOf db a.service,
          stockOf db.items si.itemId < si.qty_per_service ∧
          n = itemName db.items si.itemId)) ∧
    (∀ (db : DB) (pk : Nat) (a : Appointment),
      findAppt db pk = some a → a.status = .in_progress →
      (db.settings.prevent_completion_on_insufficient_stock = false ∨
        insufficientItems db (serviceItemsOf db a.service) = []) →
      (appointmentCompleteView db pk).1 = .success ∧
      (appointmentCompleteView db pk).2.items
        = deductStock db.items (serviceItemsOf db a.service) ∧
      findAppt (appointmentCompleteView db pk).2 pk = some { a with status := .completed } ∧
      (((serviceItemsOf db a.service).map (fun si => si.itemId)).Nodup →
        ∀ si ∈ serviceItemsOf db a.service,
          ((db.items.find? (fun it => it.id == si.itemId)).isSome) →
          stockOf (appointmentCompleteView db pk).2.items si.itemId
            = stockOf db.items si.itemId - si.qty_per_service) ∧
      (∀ j, (∀ si ∈ serviceItemsOf db a.service, si.itemId ≠ j) →
        stockOf (appointmentCompleteView db pk).2.items j = stockOf db.items j)) := by
  refine ⟨?_, ?_, ?_⟩
  · intro db pk a h1 h2
    simp only [appointmentCompleteView, h1]
    rw [if_pos h2]
  · intro db pk a h1 h2 h3 h4
    have hv : appointmentCompleteView db pk
        = (.insufficientStock (insufficientItems db (serviceItemsOf db a.service)), db) := by
      simp only [appointmentCompleteView, h1]
      rw [if_neg (fun hcontra => hcontra h2), if_pos ⟨h3, h4⟩]
    exact ⟨hv, fun n => mem_insufficientItems db (serviceItemsOf db a.service) n⟩
  · intro db pk a h1 h2 h3
    have hcond : ¬(db.settings.prevent_completion_on_insufficient_stock = true ∧
        insufficientItems db (serviceItemsOf db a.service) ≠ []) := by
      rintro ⟨hp, hne⟩
      cases h3 with
      | inl hfalse => rw [hp] at hfalse; exact Bool.noConfusion hfalse
      | inr hempty => exact hne hempty
    have hv : appointmentCompleteView db pk
        = (.success, setStatus
            { db with items := deductStock db.items (serviceItemsOf db a.service) }
            pk .completed) := by
      simp only [appointmentCompleteView, h1]
      rw [if_neg (fun hcontra => hcontra h2), if_neg hcond]
    rw [hv]
    refine ⟨rfl, rfl, ?_, ?_, ?_⟩
    · rw [findAppt_setStatus]
      have hsame : findAppt
          { db with items := deductStock db.items (serviceItemsOf db a.service) } pk
          = findAppt db pk := rfl
      rw [hsame, h1]
      rfl
    · intro hnd si hsi hpres
      exact stockOf_deductStock_required _ _ hnd si hsi hpres
    · intro j hj
      exact stockOf_deductStock_not_required _ _ j hj

/-- Fixture for the C6 witness (the spec scenario): prevent flag ON, the
service requires 10 units of "ItemName" stocked at 5, appointment 1 is
InProgress. -/
def dbInsufficient : DB :=
  { settings := defaultSettings
    services := [svcShampoo]
    items := [{ id := 1, name := "ItemName", stock := 5 }]
    appointments := [mkAppt 1 7 2 1000 1060 .in_progress]
    blocked_ranges := []
    slot_limits := []
    payments := [] }

/-- C6 witness: on the spec scenario fixture, Complete rejects with exactly
["ItemName"] and changes nothing; on the terminal fixture (appointment 1 is
Cancelled, not InProgress) Complete rejects as an invalid transition. -/
theorem c6_complete_contract_witness :
    appointmentCompleteView dbInsufficient 1
      = (.insufficientStock ["ItemName"], dbInsufficient) ∧
    appointmentCompleteView dbTerminal 1 = (.notInProgress, dbTerminal) := by
  constructor
  · have hne : insufficientItems dbInsufficient (serviceItemsOf dbInsufficient
        (mkAppt 1 7 2 1000 1060 .in_progress).service) = ["ItemName"] := by
      norm_num [insufficientItems, dbInsufficient, serviceItemsOf, svcShampoo, stockOf,
        itemName, mkAppt, List.find?, List.filter]
    have h := (c6_complete_contract.2.1 dbInsufficient 1 (mkAppt 1 7 2 1000 1060 .in_progress)
      (by decide) rfl rfl (by rw [hne]; exact fun hcontra => List.noConfusion hcontra)).1
    rw [hne] at h
    exact h
  · exact c6_complete_contract.1 dbTerminal 1 (mkAppt 1 7 1 1000 1060 .cancelled)
      (by decide) (by decide)

end Salon

